import Mathlib

/-
Verification of the Study-bot attendance and quota logic.

The Python source (src/config.py, src/database.py, src/main.py, src/utils.py)
is shallowly embedded below.  Calendar days are modelled as integers (day
ordinals), wall-clock instants as natural numbers, MongoDB documents as Lean
structures with Option fields (a missing document key is none; dict.get with a
default becomes Option.getD), and each collection as a list of documents.
update_one with upsert is modelled by updating the first matching list entry
or appending a fresh document, which matches the per-document semantics the
code relies on.
-/

namespace StudyBot

/-- Configuration constants from src/config.py.  WARNING_THRESHOLD is the
float 0.9, modelled exactly as the rational 9/10 (floor(limit * 0.9) becomes
limit * 9 / 10 in natural-number division). -/
def DEFAULT_DAILY_MESSAGE_LIMIT : Nat := 20

/-- Configuration constant CONSECUTIVE_ABSENCE_LIMIT = 3 from src/config.py.
No code under src/ reads this constant. -/
def CONSECUTIVE_ABSENCE_LIMIT : Nat := 3

/-- One entry of the notifications_sent array, as pushed by
record_notification_sent in src/database.py: a dict with keys "type" and
"sent_at". -/
structure NotifEntry where
  ntype : String
  sent_at : Nat
deriving DecidableEq, Repr

/-- A daily_activity document.  Fields are Option because a Mongo document
only carries the keys that some update has set; readers use .get(key, default),
modelled by Option.getD. -/
structure ActivityDoc where
  has_target_today : Option Bool := none
  notifications_sent : Option (List NotifEntry) := none
  marked_absent : Option Bool := none
  absent_reason : Option String := none
  last_updated : Option Nat := none
  last_notification : Option Nat := none
  absent_marked_at : Option Nat := none
deriving DecidableEq, Repr

/-- A document with no keys set, as created by an upsert whose update only
sets some fields. -/
def ActivityDoc.empty : ActivityDoc := {}

/-- A targets-collection document, with the fields written by set_target in
src/main.py and add_target in src/database.py.  created_at is a datetime of
which only the calendar date is ever consulted, modelled as created_day. -/
structure TargetDoc where
  user_id : Nat
  username : String
  target : String
  status : String
  progress : Nat
  created_day : Int
  sequence_number : Nat
  deadline : Option Int := none
  completed_day : Option Int := none
deriving DecidableEq, Repr

/-- A registrations-collection document (add_registration / accept_rules in
src/database.py). -/
structure Registration where
  user_id : Nat
  group_id : Int
  username : String
  status : String
  rules_accepted : Bool
deriving DecidableEq, Repr

/-- A users-collection document.  src/database.py declares the collection
(self.users = self.db.users) but no operation under src/ ever reads or writes
it; its documents may carry the per-user profile fields named by the spec.
It is modelled as an inert component so that claims about those fields can be
stated against the code. -/
structure UserProfile where
  consecutive_absence_count : Nat
  warning_count : Nat
deriving DecidableEq, Repr

/-- The database state: the four collections the embedded operations touch or
mention.  daily_activity is keyed by (user_id, date) as in the compound index
created in _create_indexes. -/
structure DB where
  targets : List TargetDoc
  registrations : List Registration
  daily_activity : List ((Nat × Int) × ActivityDoc)
  users : List (Nat × UserProfile)
deriving DecidableEq, Repr

/-- A database with all collections empty. -/
def emptyDB : DB := ⟨[], [], [], []⟩

/-- find_one on daily_activity by the (user_id, date) filter. -/
def findActivity (l : List ((Nat × Int) × ActivityDoc)) (u : Nat) (d : Int) :
    Option ActivityDoc :=
  (l.find? (fun e => e.fst = (u, d))).map (·.snd)

/-- update_one with upsert=True on daily_activity: apply the field update f to
the first document matching (user_id, date), or create a fresh document from
the filter plus the update when none matches. -/
def upsertActivity (l : List ((Nat × Int) × ActivityDoc)) (u : Nat) (d : Int)
    (f : ActivityDoc → ActivityDoc) : List ((Nat × Int) × ActivityDoc) :=
  match l with
  | [] => [((u, d), f ActivityDoc.empty)]
  | e :: rest =>
    if e.fst = (u, d) then (e.fst, f e.snd) :: rest
    else e :: upsertActivity rest u d f

/-- MongoDB.update_daily_activity (src/database.py lines 370-389): upsert that
$sets user_id, date, has_target_today, last_updated, notifications_sent = [],
marked_absent = False and absent_reason = "" wholesale. -/
def update_daily_activity (db : DB) (u : Nat) (d : Int) (has_target : Bool)
    (now : Nat) : DB :=
  { db with daily_activity := upsertActivity db.daily_activity u d (fun doc =>
      { doc with
        has_target_today := some has_target
        last_updated := some now
        notifications_sent := some []
        marked_absent := some false
        absent_reason := some "" }) }

/-- MongoDB.record_notification_sent (src/database.py lines 420-435): upsert
that $pushes a timestamped {type, sent_at} entry onto notifications_sent and
$sets last_notification.  $push on a missing key creates a one-element array,
modelled by getD []. -/
def record_notification_sent (db : DB) (u : Nat) (d : Int) (ty : String)
    (now : Nat) : DB :=
  { db with daily_activity := upsertActivity db.daily_activity u d (fun doc =>
      { doc with
        notifications_sent := some ((doc.notifications_sent.getD []) ++ [⟨ty, now⟩])
        last_notification := some now }) }

/-- MongoDB.mark_user_absent (src/database.py lines 437-454): upsert that
$sets marked_absent = True, absent_reason and absent_marked_at. -/
def mark_user_absent (db : DB) (u : Nat) (d : Int) (reason : String)
    (now : Nat) : DB :=
  { db with daily_activity := upsertActivity db.daily_activity u d (fun doc =>
      { doc with
        marked_absent := some true
        absent_reason := some reason
        absent_marked_at := some now }) }

/-- The dict returned by MongoDB.get_user_daily_status. -/
structure DailyStatus where
  has_target : Bool
  notifications_sent : List NotifEntry
  marked_absent : Bool
  absent_reason : String
deriving DecidableEq, Repr

/-- The default status returned when no document exists or the lookup fails. -/
def defaultDailyStatus : DailyStatus := ⟨false, [], false, ""⟩

/-- Field extraction with the .get defaults used by get_user_daily_status. -/
def statusOfDoc : Option ActivityDoc → DailyStatus
  | some a =>
    ⟨a.has_target_today.getD false, a.notifications_sent.getD [],
     a.marked_absent.getD false, a.absent_reason.getD ""⟩
  | none => defaultDailyStatus

/-- MongoDB.get_user_daily_status (src/database.py lines 456-481) as a
function of the find_one outcome: a lookup error (the except branch) and a
missing document both yield the fixed default status. -/
def get_user_daily_status_from (res : Except String (Option ActivityDoc)) :
    DailyStatus :=
  match res with
  | .ok a => statusOfDoc a
  | .error _ => defaultDailyStatus

/-- MongoDB.get_user_daily_status on a database state whose lookup succeeds. -/
def get_user_daily_status (db : DB) (u : Nat) (d : Int) : DailyStatus :=
  get_user_daily_status_from (.ok (findActivity db.daily_activity u d))

/-- The sequence number chosen by MongoDB.add_target: one more than the
largest sequence_number among the user's existing targets (find_one sorted by
sequence_number descending), or 1 when the user has none. -/
def nextSequenceNumber (targets : List TargetDoc) (u : Nat) : Nat :=
  ((targets.filter (fun t => t.user_id == u)).map (·.sequence_number)).foldr
    max 0 + 1

/-- MongoDB.add_target (src/database.py lines 77-110) on the target_data built
by set_target in src/main.py: status "active", progress 0, no deadline, no
completion.  It always insert_ones a fresh document with the next
sequence_number, then calls update_daily_activity(user, today, True). -/
def add_target (db : DB) (u : Nat) (username tgt : String) (today : Int)
    (now : Nat) : DB :=
  let seq := nextSequenceNumber db.targets u
  let doc : TargetDoc :=
    { user_id := u, username := username, target := tgt, status := "active",
      progress := 0, created_day := today, sequence_number := seq }
  update_daily_activity { db with targets := db.targets ++ [doc] } u today
    true now

/-- The element type of the list returned by get_users_without_target_today:
a dict with user_id, username and the snapshot of notifications_sent taken at
query time. -/
structure UserWithout where
  user_id : Nat
  username : String
  notifications_sent : List NotifEntry
deriving DecidableEq, Repr

/-- The per-registration clause of get_users_without_target_today: accepted
registrations of the group whose daily_activity document is missing or has
has_target_today false, with the notifications_sent snapshot (empty when no
document exists). -/
def withoutEntry (da : List ((Nat × Int) × ActivityDoc)) (gid : Int) (d : Int)
    (r : Registration) : Option UserWithout :=
  if r.group_id == gid && r.status == "accepted" then
    match findActivity da r.user_id d with
    | none => some ⟨r.user_id, r.username, []⟩
    | some a =>
      if a.has_target_today.getD false then none
      else some ⟨r.user_id, r.username, a.notifications_sent.getD []⟩
  else none

/-- MongoDB.get_users_without_target_today (src/database.py lines 391-418).
In src/database.py the name ALLOWED_GROUP_ID is unbound (the module never
imports it), so at runtime the find raises NameError and the except branch
returns []; the embedding supplies the configured group id as the explicit
parameter gid, modelling the query as written.  All theorems below quantify
over gid, so they also cover the degenerate empty-result behaviour. -/
def get_users_without_target_today (db : DB) (gid : Int) (d : Int) :
    List UserWithout :=
  db.registrations.filterMap (withoutEntry db.daily_activity gid d)

/-- An observable outbound message of the sweeps: a reminder of a given kind,
an absent notice, or the admin summary naming the absent count. -/
inductive SentMsg where
  | reminder (user_id : Nat) (ntype : String)
  | absent (user_id : Nat)
  | adminSummary (absent_count : Nat)
deriving DecidableEq, Repr

/-- The bot state: the database plus the log of successfully delivered
messages.  Delivery failures (telegram send raising) are modelled by the
reachable predicate of each sweep; a failed send appends nothing. -/
structure BotState where
  db : DB
  sent : List SentMsg
deriving DecidableEq, Repr

/-- The notification_types dict of send_daily_reminders: hour 9 is "first",
12 "second", 15 "third", 17 "final"; any other hour means no sweep runs. -/
def notificationTypeOfHour (h : Nat) : Option String :=
  if h == 9 then some "first"
  else if h == 12 then some "second"
  else if h == 15 then some "third"
  else if h == 17 then some "final"
  else none

/-- One iteration of the loop in send_daily_reminders (src/main.py lines
486-554): skip the user when the snapshot already holds an entry of this
kind; otherwise attempt the send, and only on success record the
notification.  A send failure is caught and the loop continues. -/
def reminderStep (d : Int) (ty : String) (reachable : Nat → Bool) (now : Nat)
    (st : BotState) (u : UserWithout) : BotState :=
  if u.notifications_sent.any (fun n => n.ntype == ty) then st
  else if reachable u.user_id then
    { db := record_notification_sent st.db u.user_id d ty now
      sent := st.sent ++ [SentMsg.reminder u.user_id ty] }
  else st

/-- One iteration of the loop in mark_absent_users (src/main.py lines
577-608): mark_user_absent is applied first, then the absent notice is sent;
a send failure is caught and the loop continues, the mark staying in place.
The second component counts successful sends (absent_count). -/
def absentStep (d : Int) (reachable : Nat → Bool) (now : Nat)
    (p : BotState × Nat) (u : UserWithout) : BotState × Nat :=
  let s1 : BotState :=
    { p.1 with
      db := mark_user_absent p.1.db u.user_id d "No daily target submitted" now }
  if reachable u.user_id then
    ({ s1 with sent := s1.sent ++ [SentMsg.absent u.user_id] }, p.2 + 1)
  else (s1, p.2)

/-- mark_absent_users (src/main.py lines 565-631): query the users without a
target, return early when there are none, otherwise mark each absent and
notify, then send the admin summary (itself guarded by try/except, modelled
by adminReachable). -/
def mark_absent_users (st : BotState) (gid : Int) (d : Int)
    (reachable : Nat → Bool) (adminReachable : Bool) (now : Nat) : BotState :=
  let users := get_users_without_target_today st.db gid d
  if users.isEmpty then st
  else
    let p := users.foldl (absentStep d reachable now) (st, 0)
    if adminReachable then
      { p.1 with sent := p.1.sent ++ [SentMsg.adminSummary p.2] }
    else p.1

/-- send_daily_reminders (src/main.py lines 458-562): resolve the reminder
kind from the hour (returning unchanged on other hours), query the users
without a target (returning early when none), loop sending and recording, and
for the "final" kind chain into mark_absent_users. -/
def send_daily_reminders (st : BotState) (gid : Int) (d : Int) (hour : Nat)
    (reachable : Nat → Bool) (adminReachable : Bool) (now : Nat) : BotState :=
  match notificationTypeOfHour hour with
  | none => st
  | some ty =>
    let users := get_users_without_target_today st.db gid d
    if users.isEmpty then st
    else
      let st1 := users.foldl (reminderStep d ty reachable now) st
      if ty == "final" then mark_absent_users st1 gid d reachable adminReachable now
      else st1

/-- The streak loop of MongoDB._calculate_streak: over the dates sorted
strictly descending, count one per adjacent pair exactly one day apart,
stopping at the first wider gap. -/
def countAdjacent : List Int → Nat
  | a :: b :: rest => if a - b = 1 then countAdjacent (b :: rest) + 1 else 0
  | _ => 0

/-- MongoDB._calculate_streak (src/database.py lines 203-223): on the
deduplicated dates sorted descending, add one when today is among them, then
add the initial count of consecutive-day adjacencies.  today is the wall
clock date (datetime.now); there is no as-of parameter. -/
def calculateStreak (dates : List Int) (today : Int) : Nat :=
  match dates with
  | [] => 0
  | _ :: _ =>
    let ds := List.insertionSort (fun a b => a ≥ b) dates.dedup
    (if today ∈ ds then 1 else 0) + countAdjacent ds

/-- The completed_dates comprehension of MongoDB.get_user_stats: the
completion dates of targets that have completed_at set and status
"completed". -/
def completedDates (targets : List TargetDoc) : List Int :=
  targets.filterMap (fun t =>
    match t.completed_day with
    | some cd => if t.status == "completed" then some cd else none
    | none => none)

/-- current_streak as computed by MongoDB.get_user_stats: _calculate_streak
over the completed dates of the user's targets. -/
def current_streak (db : DB) (u : Nat) (today : Int) : Nat :=
  calculateStreak (completedDates (db.targets.filter (fun t => t.user_id == u)))
    today

/-- The walk the specification describes for currentStreak: starting at asOf,
count backwards while each day is attended, stopping at the first day that is
not.  The fuel bounds the walk; a streak can never exceed the number of
recorded dates, so dates.length + 1 steps always suffice. -/
def walkBackAux (dates : List Int) : Int → Nat → Nat
  | _, 0 => 0
  | d, Nat.succ fuel => if d ∈ dates then walkBackAux dates (d - 1) fuel + 1 else 0

/-- The specification-side streak: walk backward day by day from asOf,
counting while each day appears among the attended dates, stopping at the
first day that does not. -/
def walkBack (dates : List Int) (asOf : Int) : Nat :=
  walkBackAux dates asOf (dates.length + 1)

/-- A per-(user, day) quota record: message count and the limit in effect
that day. -/
structure QuotaRecord where
  count : Nat
  message_limit : Nat
deriving DecidableEq, Repr

/-- Modelled from the spec: the message-quota operation recordMessage is
absent from src/ (src/config.py only declares DEFAULT_DAILY_MESSAGE_LIMIT,
WARNING_THRESHOLD and the exempt commands; no handler counts messages).
Spec section 4.2: if no record exists for (user, day), create one with
count = 1 using the user's current limit, else increment the count; return
the post-increment count and the limit in effect that day. -/
def recordMessage (rec : Option QuotaRecord) (userLimit : Nat) :
    (Nat × Nat) × QuotaRecord :=
  match rec with
  | none => ((1, userLimit), ⟨1, userLimit⟩)
  | some r => ((r.count + 1, r.message_limit), ⟨r.count + 1, r.message_limit⟩)

/-- floor(limit * WARNING_THRESHOLD) with WARNING_THRESHOLD = 0.9, the count
at which the caller emits the single warning. -/
def warningPoint (limit : Nat) : Nat := limit * 9 / 10

/-- The quota record for (user, day) after n recordMessage calls starting
from no record. -/
def quotaAfter (userLimit : Nat) : Nat → Option QuotaRecord
  | 0 => none
  | Nat.succ n => some (recordMessage (quotaAfter userLimit n) userLimit).2

/-- The (count, limit) pair returned by the n-th recordMessage call of the
day (n counted from 1). -/
def callResult (userLimit : Nat) (n : Nat) : Nat × Nat :=
  (recordMessage (quotaAfter userLimit (n - 1)) userLimit).1

/-- Modelled from the spec: the caller-side warning decision, count ==
floor(limit * warningThreshold) on the pair returned by the n-th call. -/
def warnSignal (userLimit : Nat) (n : Nat) : Bool :=
  (callResult userLimit n).1 == warningPoint (callResult userLimit n).2

/-- Modelled from the spec: the caller-side rejection decision, count > limit
on the pair returned by the n-th call. -/
def rejectSignal (userLimit : Nat) (n : Nat) : Bool :=
  decide ((callResult userLimit n).2 < (callResult userLimit n).1)

section Lemmas

/-- Looking up the upserted key finds the updated document, built from the
previously stored one or from the empty document. -/
theorem findActivity_upsert_self (l : List ((Nat × Int) × ActivityDoc))
    (u : Nat) (d : Int) (f : ActivityDoc → ActivityDoc) :
    findActivity (upsertActivity l u d f) u d
      = some (f ((findActivity l u d).getD ActivityDoc.empty)) := by
  induction l with
  | nil => simp [findActivity, upsertActivity]
  | cons e rest ih =>
    by_cases he : e.fst = (u, d)
    · simp [upsertActivity, findActivity, he, List.find?]
    · simpa [upsertActivity, findActivity, he, List.find?] using ih

/-- Looking up any other key is unaffected by an upsert. -/
theorem findActivity_upsert_other (l : List ((Nat × Int) × ActivityDoc))
    (u : Nat) (d : Int) (f : ActivityDoc → ActivityDoc) (u' : Nat) (d' : Int)
    (h : (u', d') ≠ (u, d)) :
    findActivity (upsertActivity l u d f) u' d' = findActivity l u' d' := by
  have hud : ¬(u = u' ∧ d = d') := by
    rintro ⟨h1, h2⟩
    exact h (by simp [h1, h2])
  induction l with
  | nil => simp [findActivity, upsertActivity, List.find?, Prod.mk.injEq, hud]
  | cons e rest ih =>
    by_cases he : e.fst = (u, d)
    · simp [upsertActivity, findActivity, he, List.find?, Prod.mk.injEq, hud]
    · by_cases he' : e.fst = (u', d')
      · simp only [upsertActivity]
        rw [if_neg he]
        simp [findActivity, List.find?, he']
      · simpa [upsertActivity, findActivity, he, List.find?, he'] using ih

/-- The daily status always reads the notifications list of the stored
document through the same defaults that the upsert helpers use. -/
theorem notifListOf_eq (db : DB) (u : Nat) (d : Int) :
    (get_user_daily_status db u d).notifications_sent
      = ((findActivity db.daily_activity u d).getD
          ActivityDoc.empty).notifications_sent.getD [] := by
  cases h : findActivity db.daily_activity u d <;>
    simp [get_user_daily_status, get_user_daily_status_from, statusOfDoc, h,
      ActivityDoc.empty, defaultDailyStatus]

/-- The daily status right after update_daily_activity for the same key:
the stored flag, an empty notifications list, not absent, empty reason. -/
theorem get_user_daily_status_update (db : DB) (u : Nat) (d : Int) (b : Bool)
    (now : Nat) :
    get_user_daily_status (update_daily_activity db u d b now) u d
      = ⟨b, [], false, ""⟩ := by
  simp only [get_user_daily_status, get_user_daily_status_from,
    update_daily_activity]
  rw [findActivity_upsert_self]
  rfl

end Lemmas

/-- Claim C9: adding a target after the user was already marked absent for
the day overwrites the daily activity record with fresh defaults — the
absent mark, the absent reason and the notifications history of the day are
all erased, and only has_target remains set. -/
theorem c9_add_target_erases_absence_and_reminders (db : DB) (u : Nat)
    (un tgt : String) (today : Int) (now : Nat)
    (_habs : (get_user_daily_status db u today).marked_absent = true) :
    get_user_daily_status (add_target db u un tgt today now) u today
      = ⟨true, [], false, ""⟩ :=
  get_user_daily_status_update _ u today true now

/-- Witness for C9 at a concrete marked-absent state. -/
theorem c9_add_target_erases_absence_and_reminders_witness :
    (get_user_daily_status (mark_user_absent emptyDB 7 1 "No daily target submitted" 0)
        7 1).marked_absent = true
    ∧ get_user_daily_status
        (add_target (mark_user_absent emptyDB 7 1 "No daily target submitted" 0)
          7 "alice" "read chapter 5" 1 3) 7 1
      = ⟨true, [], false, ""⟩ :=
  ⟨by decide,
   c9_add_target_erases_absence_and_reminders _ 7 "alice" "read chapter 5" 1 3
     (by decide)⟩

/-- Claim C10: with no daily_activity document for the user and day, the
status is the fixed default, and the error branch of the lookup also yields
the default, so the operation is total. -/
theorem c10_daily_status_total_defaults (db : DB) (u : Nat) (d : Int)
    (e : String) (h : findActivity db.daily_activity u d = none) :
    get_user_daily_status db u d = defaultDailyStatus
    ∧ get_user_daily_status_from (Except.error e) = defaultDailyStatus := by
  refine ⟨?_, rfl⟩
  simp [get_user_daily_status, get_user_daily_status_from, h, statusOfDoc]

/-- Witness for C10 on the empty database and a concrete lookup error. -/
theorem c10_daily_status_total_defaults_witness :
    findActivity emptyDB.daily_activity 7 1 = none
    ∧ (get_user_daily_status emptyDB 7 1 = defaultDailyStatus
       ∧ get_user_daily_status_from (Except.error "timeout") = defaultDailyStatus) :=
  ⟨rfl, c10_daily_status_total_defaults emptyDB 7 1 "timeout" rfl⟩

/-- Claim C3, counterexample: two add_target calls for the same user on the
same day leave two active targets for that day — the second call inserts a
fresh document instead of updating the existing one, refuting the at most
one active target per user per day invariant. -/
theorem c3_counterexample :
    ((add_target (add_target emptyDB 7 "alice" "read chapter 5" 1 0)
        7 "alice" "read chapter 6" 1 1).targets.filter
      (fun t => t.user_id == 7 && t.created_day == 1 && t.status == "active")).length
      = 2 := by decide

/-- Claim C3 as amended: add_target is not idempotent per day — every call
appends a fresh target document (with the next sequence_number), so two calls
on one day grow the targets collection by two; only the daily-activity flag
has_target is set idempotently. -/
theorem c3_amended_add_target_always_inserts (db : DB) (u : Nat)
    (un t1 t2 : String) (d : Int) (n1 n2 : Nat) :
    (add_target (add_target db u un t1 d n1) u un t2 d n2).targets.length
        = db.targets.length + 2
    ∧ (get_user_daily_status (add_target db u un t1 d n1) u d).has_target
        = true := by
  constructor
  · simp [add_target, update_daily_activity]
  · rw [show get_user_daily_status (add_target db u un t1 d n1) u d
          = ⟨true, [], false, ""⟩ from get_user_daily_status_update _ u d true n1]

/-- The concrete profile store for the C5 evaluation: one user whose
consecutive_absence_count is 5 before the target is recorded. -/
def c5DB : DB :=
  { targets := [], registrations := [], daily_activity := [],
    users := [(7, ⟨5, 1⟩)] }

/-- Claim C5, evaluated at its failing input: after a successful add_target
(the daily flag becomes true), the stored profile still carries
consecutive_absence_count = 5 — no operation under src/ ever writes the
users collection, so the counter is not reset to 0. -/
theorem c5_counter_not_reset :
    (add_target c5DB 7 "alice" "read chapter 5" 1 0).users = [(7, ⟨5, 1⟩)]
    ∧ (get_user_daily_status (add_target c5DB 7 "alice" "read chapter 5" 1 0)
        7 1).has_target = true := by
  exact ⟨rfl, by decide⟩

/-- Claim C7, counterexample: record_notification_sent stores one entry, but
a subsequent update_daily_activity for the same user and day resets
notifications_sent to the empty list, deleting the previously recorded
entry — the sequence is not append-only. -/
theorem c7_counterexample :
    (get_user_daily_status (record_notification_sent emptyDB 7 1 "first" 0)
        7 1).notifications_sent = [⟨"first", 0⟩]
    ∧ (get_user_daily_status
        (update_daily_activity (record_notification_sent emptyDB 7 1 "first" 0)
          7 1 true 5) 7 1).notifications_sent = [] := by
  decide

/-- Claim C7 as amended: record_notification_sent appends exactly one
timestamped entry and mark_user_absent leaves the sequence unchanged, but
update_daily_activity (invoked by add_target) overwrites the day record and
resets notifications_sent to the empty list. -/
theorem c7_amended_notifications_append_only_except_update (db : DB) (u : Nat)
    (d : Int) (ty reason : String) (b : Bool) (now : Nat) :
    (get_user_daily_status (record_notification_sent db u d ty now)
        u d).notifications_sent
      = (get_user_daily_status db u d).notifications_sent ++ [⟨ty, now⟩]
    ∧ (get_user_daily_status (mark_user_absent db u d reason now)
        u d).notifications_sent
      = (get_user_daily_status db u d).notifications_sent
    ∧ (get_user_daily_status (update_daily_activity db u d b now)
        u d).notifications_sent = [] := by
  refine ⟨?_, ?_, ?_⟩ <;>
  · simp only [notifListOf_eq, record_notification_sent, mark_user_absent,
      update_daily_activity]
    rw [findActivity_upsert_self]
    rfl

/-- The initial state for the C2 evaluation: one accepted registration in
group 1, no targets, a fresh profile. -/
def c2InitialDB : DB :=
  { targets := [], registrations := [⟨7, 1, "alice", "accepted", true⟩],
    daily_activity := [], users := [(7, ⟨0, 0⟩)] }

/-- One end-of-day run for the C2 evaluation: the 17:00 invocation of
send_daily_reminders, which chains into mark_absent_users, with every send
succeeding. -/
def c2Sweep (st : BotState) (d : Int) : BotState :=
  send_daily_reminders st 1 d 17 (fun _ => true) true 0

/-- The state after four consecutive end-of-day sweeps (days 1 to 4) during
which user 7 never posts a target. -/
def c2Final : BotState :=
  c2Sweep (c2Sweep (c2Sweep (c2Sweep ⟨c2InitialDB, []⟩ 1) 2) 3) 4

/-- Claim C2, evaluated at its failing input: a registered user silent for
four consecutive end-of-day sweeps (threshold CONSECUTIVE_ABSENCE_LIMIT = 3)
is marked absent each day, but the stored profile counters never change
(consecutive_absence_count stays 0, warning_count stays 0, so no warning is
ever triggered) and the registration is never revoked — the escalation the
claim describes does not exist in the code. -/
theorem c2_no_escalation :
    (c2Sweep ⟨c2InitialDB, []⟩ 1).db.users = [(7, ⟨0, 0⟩)]
    ∧ c2Final.db.users = [(7, ⟨0, 0⟩)]
    ∧ c2Final.db.registrations = [⟨7, 1, "alice", "accepted", true⟩]
    ∧ (get_user_daily_status c2Final.db 7 3).marked_absent = true
    ∧ (get_user_daily_status c2Final.db 7 4).marked_absent = true := by
  decide

/-- The quota record after n calls is count = n with the fixed limit. -/
theorem quotaAfter_eq (L : Nat) (n : Nat) :
    quotaAfter L n = if n = 0 then none else some ⟨n, L⟩ := by
  induction n with
  | zero => rfl
  | succ m ih =>
    have hstep : quotaAfter L (m + 1)
        = some (recordMessage (quotaAfter L m) L).2 := rfl
    rw [hstep, ih]
    cases m <;> simp [recordMessage]

/-- The n-th call (n from 1) returns the pair (n, limit). -/
theorem callResult_eq (L n : Nat) (h : 1 ≤ n) : callResult L n = (n, L) := by
  cases n with
  | zero => omega
  | succ m =>
    cases m with
    | zero => rfl
    | succ k =>
      simp [callResult, quotaAfter_eq, recordMessage]

/-- Claim C6: on the n-th recordMessage call of a day, the warning signal
fires exactly when n equals floor(limit * 0.9) (hence exactly once along the
monotone counter), and the rejection signal fires exactly when n exceeds the
limit; with the configured limit 20 the warning is on message 18, message 20
still passes, and message 21 is rejected. -/
theorem c6_quota_warning_and_rejection (L n : Nat) (h : 1 ≤ n) :
    (warnSignal L n = true ↔ n = warningPoint L)
    ∧ (rejectSignal L n = true ↔ L < n)
    ∧ (warnSignal DEFAULT_DAILY_MESSAGE_LIMIT 18 = true
       ∧ rejectSignal DEFAULT_DAILY_MESSAGE_LIMIT 20 = false
       ∧ rejectSignal DEFAULT_DAILY_MESSAGE_LIMIT 21 = true) := by
  refine ⟨?_, ?_, by decide, by decide, by decide⟩
  · simp [warnSignal, callResult_eq L n h]
  · simp [rejectSignal, callResult_eq L n h]

/-- Witness for C6 at limit 20, call 18. -/
theorem c6_quota_warning_and_rejection_witness :
    1 ≤ 18
    ∧ ((warnSignal 20 18 = true ↔ 18 = warningPoint 20)
       ∧ (rejectSignal 20 18 = true ↔ 20 < 18)
       ∧ (warnSignal DEFAULT_DAILY_MESSAGE_LIMIT 18 = true
          ∧ rejectSignal DEFAULT_DAILY_MESSAGE_LIMIT 20 = false
          ∧ rejectSignal DEFAULT_DAILY_MESSAGE_LIMIT 21 = true)) :=
  ⟨by decide, c6_quota_warning_and_rejection 20 18 (by decide)⟩

section StreakLemmas

/-- The backward walk depends on the date list only through membership. -/
theorem walkBackAux_congr (l1 l2 : List Int)
    (h : ∀ x : Int, x ∈ l1 ↔ x ∈ l2) :
    ∀ (fuel : Nat) (d : Int), walkBackAux l1 d fuel = walkBackAux l2 d fuel := by
  intro fuel
  induction fuel with
  | zero => intro d; rfl
  | succ m ih =>
    intro d
    by_cases hd : d ∈ l1
    · simp only [walkBackAux]
      rw [if_pos hd, if_pos ((h d).mp hd), ih]
    · simp only [walkBackAux]
      rw [if_neg hd, if_neg (fun hx => hd ((h d).mpr hx))]

/-- Walking from strictly below the head of the list never meets the head,
so the head can be dropped. -/
theorem walkBackAux_cons_of_lt (h : Int) (t : List Int)
    (_hall : ∀ x ∈ t, x < h) :
    ∀ (fuel : Nat) (d : Int), d < h →
      walkBackAux (h :: t) d fuel = walkBackAux t d fuel := by
  intro fuel
  induction fuel with
  | zero => intro d _; rfl
  | succ m ih =>
    intro d hd
    have hmem : (d ∈ h :: t) ↔ d ∈ t := by
      constructor
      · intro hx
        rcases List.mem_cons.mp hx with h1 | hx
        · omega
        · exact hx
      · exact fun hx => List.mem_cons_of_mem _ hx
    by_cases hdt : d ∈ t
    · simp only [walkBackAux]
      rw [if_pos (hmem.mpr hdt), if_pos hdt, ih (d - 1) (by omega)]
    · simp only [walkBackAux]
      rw [if_neg (fun hx => hdt (hmem.mp hx)), if_neg hdt]

/-- On a strictly descending list, the backward walk from the head counts
exactly one more than the initial run of consecutive-day adjacencies, given
enough fuel. -/
theorem walkBackAux_sorted :
    ∀ (t : List Int) (h : Int), List.Pairwise (· > ·) (h :: t) →
      ∀ fuel, (h :: t).length ≤ fuel →
        walkBackAux (h :: t) h fuel = countAdjacent (h :: t) + 1 := by
  intro t
  induction t with
  | nil =>
    intro h _ fuel hf
    obtain ⟨m, rfl⟩ : ∃ m, fuel = m + 1 := ⟨fuel - 1, by simp at hf; omega⟩
    simp only [walkBackAux]
    rw [if_pos (List.mem_singleton_self h)]
    have hz : walkBackAux [h] (h - 1) m = 0 := by
      cases m with
      | zero => rfl
      | succ k =>
        simp only [walkBackAux]
        rw [if_neg]
        intro hx
        have := List.mem_singleton.mp hx
        omega
    rw [hz]
    rfl
  | cons b rest ih =>
    intro h hsort fuel hf
    have hhead := (List.pairwise_cons.mp hsort).1
    have hhb : h > b := hhead b (List.mem_cons_self b rest)
    have hall : ∀ x ∈ b :: rest, x < h := fun x hx => hhead x hx
    have hsort' : List.Pairwise (· > ·) (b :: rest) :=
      (List.pairwise_cons.mp hsort).2
    obtain ⟨m, rfl⟩ : ∃ m, fuel = m + 1 := ⟨fuel - 1, by simp at hf; omega⟩
    have hflen : (b :: rest).length ≤ m := by
      simp at hf ⊢
      omega
    simp only [walkBackAux]
    rw [if_pos (List.mem_cons_self h _)]
    by_cases hadj : h - b = 1
    · have hb1 : h - 1 = b := by omega
      rw [walkBackAux_cons_of_lt h (b :: rest) hall m (h - 1) (by omega), hb1,
        ih b hsort' m hflen]
      have hca : countAdjacent (h :: b :: rest)
          = countAdjacent (b :: rest) + 1 := by
        simp [countAdjacent, hadj]
      omega
    · have hz : walkBackAux (h :: b :: rest) (h - 1) m = 0 := by
        cases m with
        | zero => rfl
        | succ k =>
          simp only [walkBackAux]
          rw [if_neg]
          intro hx
          rcases List.mem_cons.mp hx with h1 | hx
          · omega
          · rcases List.mem_cons.mp hx with h2 | hx
            · omega
            · have := (List.pairwise_cons.mp hsort').1 _ hx
              omega
      have hca : countAdjacent (h :: b :: rest) = 0 := by
        simp [countAdjacent, hadj]
      rw [hz, hca]

end StreakLemmas

/-- Claim C4, counterexample: with completed dates on days 3 and 4 and today
being day 5 (a day with no completion and no day-off), _calculate_streak
returns 1, while the walk backward from day 5 that the claim describes stops
immediately and returns 0. -/
theorem c4_counterexample :
    calculateStreak [4, 3] 5 = 1 ∧ walkBack [4, 3] 5 = 0 := by
  decide

/-- Claim C4 as amended: _calculate_streak consults only the completed-target
dates and the wall-clock day (there is no as-of parameter and no day-off
input).  Whenever today itself carries a completion and no recorded date lies
in the future, the result agrees with the backward day-by-day walk of the
claim; when today carries no completion the result is the length of the
initial consecutive run of the most recent distinct dates, which can be
positive (see the counterexample). -/
theorem c4_amended_streak_is_backward_walk (dates : List Int) (today : Int)
    (hmem : today ∈ dates) (hmax : ∀ x ∈ dates, x ≤ today) :
    calculateStreak dates today = walkBack dates today := by
  cases hdates : dates with
  | nil => subst hdates; exact absurd hmem (List.not_mem_nil today)
  | cons a as =>
    subst hdates
    set ds := List.insertionSort (fun x y : Int => x ≥ y) (a :: as).dedup with hds
    have hperm : List.Perm ds ((a :: as).dedup) := List.perm_insertionSort _ _
    have hnodup : ds.Nodup := hperm.nodup_iff.mpr (List.nodup_dedup _)
    have hsorted : List.Sorted (fun x y : Int => x ≥ y) ds :=
      List.sorted_insertionSort _ _
    have hmemds : ∀ x : Int, x ∈ ds ↔ x ∈ a :: as := by
      intro x
      rw [hperm.mem_iff, List.mem_dedup]
    have hstrict : List.Pairwise (fun x y : Int => x > y) ds :=
      List.Pairwise.imp₂
        (fun x y (hxy : x ≥ y) (hne : x ≠ y) =>
          lt_of_le_of_ne hxy (fun hyx => hne hyx.symm))
        hsorted hnodup
    have htoday : today ∈ ds := (hmemds today).mpr hmem
    obtain ⟨h, t, hht⟩ : ∃ h t, ds = h :: t := by
      cases hcase : ds with
      | nil => rw [hcase] at htoday; exact absurd htoday (List.not_mem_nil _)
      | cons h t => exact ⟨h, t, rfl⟩
    have hhead : h = today := by
      rw [hht] at htoday hstrict
      rcases List.mem_cons.mp htoday with h1 | h2
      · omega
      · have hgt : h > today := (List.pairwise_cons.mp hstrict).1 today h2
        have hle : h ≤ today := hmax h ((hmemds h).mp (by rw [hht]; exact List.mem_cons_self h t))
        omega
    have hlen : ds.length ≤ (a :: as).length := by
      rw [hperm.length_eq]
      exact (List.dedup_sublist (a :: as)).length_le
    have hcalc : calculateStreak (a :: as) today = countAdjacent ds + 1 := by
      simp only [calculateStreak, ← hds]
      rw [if_pos htoday]
      omega
    have hwalk : walkBack (a :: as) today = countAdjacent ds + 1 := by
      unfold walkBack
      rw [walkBackAux_congr (a :: as) ds (fun x => (hmemds x).symm)]
      rw [hht] at hstrict hlen ⊢
      rw [← hhead]
      exact walkBackAux_sorted t h hstrict ((a :: as).length + 1)
        (by simp at hlen ⊢; omega)
    rw [hcalc, hwalk]

/-- Witness for C4 on completions at days 4 and 5 with today day 5. -/
theorem c4_amended_streak_is_backward_walk_witness :
    (5 : Int) ∈ [5, 4]
    ∧ calculateStreak [5, 4] 5 = walkBack [5, 4] 5 :=
  ⟨by decide,
   c4_amended_streak_is_backward_walk [5, 4] 5 (by decide) (by decide)⟩

/-- The number of delivered reminder notifications of kind ty to user u. -/
def countReminders (l : List SentMsg) (u : Nat) (ty : String) : Nat :=
  (l.filter (fun m => m == SentMsg.reminder u ty)).length

/-- Whether the stored daily_activity document of (u, d) already records a
notification of kind ty — the guard consulted (through the query snapshot) by
the reminder loop. -/
def hasNotifB (db : DB) (u : Nat) (d : Int) (ty : String) : Bool :=
  match findActivity db.daily_activity u d with
  | some a => (a.notifications_sent.getD []).any (fun n => n.ntype == ty)
  | none => false

/-- The marked_absent flag as read back by get_user_daily_status. -/
def markedB (db : DB) (u : Nat) (d : Int) : Bool :=
  (get_user_daily_status db u d).marked_absent

section SweepLemmas

/-- Counting reminders across an appended message. -/
theorem countReminders_append (l : List SentMsg) (m : SentMsg) (u : Nat)
    (ty : String) :
    countReminders (l ++ [m]) u ty
      = countReminders l u ty
        + (if m = SentMsg.reminder u ty then 1 else 0) := by
  by_cases hm : m = SentMsg.reminder u ty <;>
    simp [countReminders, List.filter_append, hm]

/-- Recording a notification of kind ty makes the guard for that kind true. -/
theorem hasNotifB_record_self (db : DB) (u : Nat) (d : Int) (ty : String)
    (now : Nat) :
    hasNotifB (record_notification_sent db u d ty now) u d ty = true := by
  simp only [hasNotifB, record_notification_sent]
  rw [findActivity_upsert_self]
  simp

/-- Recording any notification preserves an already true guard. -/
theorem hasNotifB_record_pres (db : DB) (u : Nat) (d : Int) (ty : String)
    (u' : Nat) (d' : Int) (ty' : String) (now : Nat)
    (h : hasNotifB db u d ty = true) :
    hasNotifB (record_notification_sent db u' d' ty' now) u d ty = true := by
  by_cases hk : ((u : Nat), (d : Int)) = (u', d')
  · obtain ⟨h1, h2⟩ := Prod.mk.injEq .. ▸ hk
    subst h1; subst h2
    simp only [hasNotifB, record_notification_sent] at h ⊢
    rw [findActivity_upsert_self]
    cases hf : findActivity db.daily_activity u d with
    | none => rw [hf] at h; simp at h
    | some a =>
      rw [hf] at h
      simp only [Option.getD_some, List.any_append, Bool.or_eq_true]
      exact Or.inl h
  · simp only [hasNotifB, record_notification_sent]
    rw [findActivity_upsert_other _ _ _ _ _ _ hk]
    exact h

/-- Marking a user absent preserves an already true guard: the notification
list is untouched. -/
theorem hasNotifB_mark_pres (db : DB) (u : Nat) (d : Int) (ty : String)
    (u' : Nat) (d' : Int) (reason : String) (now : Nat)
    (h : hasNotifB db u d ty = true) :
    hasNotifB (mark_user_absent db u' d' reason now) u d ty = true := by
  by_cases hk : ((u : Nat), (d : Int)) = (u', d')
  · obtain ⟨h1, h2⟩ := Prod.mk.injEq .. ▸ hk
    subst h1; subst h2
    simp only [hasNotifB, mark_user_absent] at h ⊢
    rw [findActivity_upsert_self]
    cases hf : findActivity db.daily_activity u d with
    | none => rw [hf] at h; simp at h
    | some a => rw [hf] at h; simpa using h
  · simp only [hasNotifB, mark_user_absent]
    rw [findActivity_upsert_other _ _ _ _ _ _ hk]
    exact h

/-- Marking a user absent sets the flag that get_user_daily_status reads. -/
theorem markedB_mark_self (db : DB) (u : Nat) (d : Int) (reason : String)
    (now : Nat) : markedB (mark_user_absent db u d reason now) u d = true := by
  simp only [markedB, get_user_daily_status, get_user_daily_status_from,
    mark_user_absent]
  rw [findActivity_upsert_self]
  rfl

/-- Marking any user absent preserves a set flag. -/
theorem markedB_mark_pres (db : DB) (u : Nat) (d : Int) (u' : Nat) (d' : Int)
    (reason : String) (now : Nat) (h : markedB db u d = true) :
    markedB (mark_user_absent db u' d' reason now) u d = true := by
  by_cases hk : ((u : Nat), (d : Int)) = (u', d')
  · obtain ⟨h1, h2⟩ := Prod.mk.injEq .. ▸ hk
    subst h1; subst h2
    exact markedB_mark_self db u d reason now
  · simp only [markedB, get_user_daily_status, get_user_daily_status_from,
      mark_user_absent] at h ⊢
    rw [findActivity_upsert_other _ _ _ _ _ _ hk]
    exact h

/-- A produced query entry carries the user id of its registration, which is
accepted and of the queried group. -/
theorem withoutEntry_some (da : List ((Nat × Int) × ActivityDoc)) (gid : Int)
    (d : Int) (r : Registration) (e : UserWithout)
    (h : withoutEntry da gid d r = some e) :
    e.user_id = r.user_id
    ∧ (r.group_id == gid && r.status == "accepted") = true := by
  unfold withoutEntry at h
  by_cases hg : (r.group_id == gid && r.status == "accepted") = true
  · rw [if_pos hg] at h
    refine ⟨?_, hg⟩
    cases hf : findActivity da r.user_id d with
    | none => simp only [hf] at h; cases h; rfl
    | some a =>
      simp only [hf] at h
      by_cases ht : a.has_target_today.getD false
      · rw [if_pos ht] at h; cases h
      · rw [if_neg ht] at h; cases h; rfl
  · rw [if_neg hg] at h
    cases h

/-- When the guard already records kind ty for user u, every query entry for
u carries ty in its notifications snapshot. -/
theorem withoutTarget_snapshot_of_hasNotif (db : DB) (gid : Int) (d : Int)
    (u : Nat) (ty : String) (hn : hasNotifB db u d ty = true)
    (e : UserWithout) (he : e ∈ get_users_without_target_today db gid d)
    (hu : e.user_id = u) :
    e.notifications_sent.any (fun n => n.ntype == ty) = true := by
  obtain ⟨r, _hr, hre⟩ := List.mem_filterMap.mp he
  unfold withoutEntry at hre
  by_cases hg : (r.group_id == gid && r.status == "accepted") = true
  · rw [if_pos hg] at hre
    cases hf : findActivity db.daily_activity r.user_id d with
    | none =>
      simp only [hf] at hre
      cases hre
      simp only at hu
      subst hu
      simp only [hasNotifB, hf] at hn
      cases hn
    | some a =>
      simp only [hf] at hre
      by_cases ht : a.has_target_today.getD false
      · rw [if_pos ht] at hre; cases hre
      · rw [if_neg ht] at hre
        cases hre
        simp only at hu ⊢
        subst hu
        simp only [hasNotifB, hf] at hn
        exact hn
  · rw [if_neg hg] at hre
    cases hre

/-- The query yields at most as many entries for user u as there are accepted
registrations of u in the group. -/
theorem countP_withoutTarget_le (rs : List Registration)
    (da : List ((Nat × Int) × ActivityDoc)) (gid : Int) (d : Int) (u : Nat) :
    (rs.filterMap (withoutEntry da gid d)).countP (fun e => e.user_id == u)
      ≤ (rs.filter (fun rg =>
          rg.user_id == u && rg.group_id == gid && rg.status == "accepted")).length := by
  induction rs with
  | nil => simp
  | cons r rs ih =>
    rw [List.filterMap_cons]
    cases hw : withoutEntry da gid d r with
    | none =>
      rw [List.filter_cons]
      by_cases hp : (r.user_id == u && r.group_id == gid && r.status == "accepted") = true
      · rw [if_pos hp]
        exact le_trans ih (by simp)
      · rw [if_neg hp]
        exact ih
    | some e =>
      obtain ⟨heu, hga⟩ := withoutEntry_some da gid d r e hw
      rw [List.countP_cons, List.filter_cons]
      by_cases hu : (e.user_id == u) = true
      · have hru : r.user_id = u := by
          rw [← heu]
          exact beq_iff_eq.mp hu
        have hp : (r.user_id == u && r.group_id == gid && r.status == "accepted")
            = true := by
          simp only [Bool.and_eq_true] at hga ⊢
          exact ⟨⟨by simp [hru], hga.1⟩, hga.2⟩
        rw [if_pos hp]
        simp only [hu, if_pos]
        simpa using Nat.add_le_add_right ih 1
      · simp only [hu, if_neg]
        simp only [Bool.false_eq_true, if_false, Nat.add_zero]
        by_cases hp : (r.user_id == u && r.group_id == gid && r.status == "accepted") = true
        · rw [if_pos hp]
          exact le_trans ih (by simp)
        · rw [if_neg hp]
          exact ih

/-- A reminder iteration either leaves the state unchanged (guard hit or
send failure) or delivers and records in one step. -/
theorem reminderStep_cases (d : Int) (ty : String) (r : Nat → Bool) (n : Nat)
    (st : BotState) (e : UserWithout) :
    reminderStep d ty r n st e = st
    ∨ reminderStep d ty r n st e
        = { db := record_notification_sent st.db e.user_id d ty n
            sent := st.sent ++ [SentMsg.reminder e.user_id ty] } := by
  unfold reminderStep
  by_cases h1 : (e.notifications_sent.any fun nn => nn.ntype == ty) = true
  · rw [if_pos h1]; exact Or.inl rfl
  · rw [if_neg h1]
    by_cases h2 : r e.user_id = true
    · rw [if_pos h2]; exact Or.inr rfl
    · rw [if_neg h2]; exact Or.inl rfl

/-- A user whose snapshot already holds the kind is skipped outright. -/
theorem reminderStep_skip (d : Int) (ty : String) (r : Nat → Bool) (n : Nat)
    (st : BotState) (e : UserWithout)
    (h : (e.notifications_sent.any fun nn => nn.ntype == ty) = true) :
    reminderStep d ty r n st e = st := by
  unfold reminderStep
  rw [if_pos h]

/-- The reminder loop delivers at most one reminder per entry naming u. -/
theorem foldl_reminder_count_le (d : Int) (ty0 : String) (r : Nat → Bool)
    (n : Nat) (u : Nat) (ty : String) :
    ∀ (l : List UserWithout) (st : BotState),
      countReminders ((l.foldl (reminderStep d ty0 r n) st).sent) u ty
        ≤ countReminders st.sent u ty + l.countP (fun e => e.user_id == u) := by
  intro l
  induction l with
  | nil => intro st; simp
  | cons e l ih =>
    intro st
    rw [List.foldl_cons, List.countP_cons]
    rcases reminderStep_cases d ty0 r n st e with hc | hc <;> rw [hc]
    · exact le_trans (ih st) (by omega)
    · refine le_trans (ih _) ?_
      have hsent : ({ db := record_notification_sent st.db e.user_id d ty0 n,
                      sent := st.sent ++ [SentMsg.reminder e.user_id ty0] }
            : BotState).sent
          = st.sent ++ [SentMsg.reminder e.user_id ty0] := rfl
      rw [hsent, countReminders_append]
      by_cases hm : SentMsg.reminder e.user_id ty0 = SentMsg.reminder u ty
      · rw [if_pos hm]
        rw [SentMsg.reminder.injEq] at hm
        have hbeq : (e.user_id == u) = true := by simp [hm.1]
        simp only [hbeq, if_true]
        omega
      · rw [if_neg hm]
        omega

/-- The reminder loop never removes delivered messages from the count. -/
theorem foldl_reminder_count_mono (d : Int) (ty0 : String) (r : Nat → Bool)
    (n : Nat) (u : Nat) (ty : String) :
    ∀ (l : List UserWithout) (st : BotState),
      countReminders st.sent u ty
        ≤ countReminders ((l.foldl (reminderStep d ty0 r n) st).sent) u ty := by
  intro l
  induction l with
  | nil => intro st; simp
  | cons e l ih =>
    intro st
    rw [List.foldl_cons]
    rcases reminderStep_cases d ty0 r n st e with hc | hc <;> rw [hc]
    · exact ih st
    · refine le_trans ?_ (ih _)
      rw [countReminders_append]
      omega

/-- The reminder loop delivers nothing of a kind other than the one it runs
for. -/
theorem foldl_reminder_count_ne (d : Int) (ty0 : String) (r : Nat → Bool)
    (n : Nat) (u : Nat) (ty : String) (hty : ty ≠ ty0) :
    ∀ (l : List UserWithout) (st : BotState),
      countReminders ((l.foldl (reminderStep d ty0 r n) st).sent) u ty
        = countReminders st.sent u ty := by
  intro l
  induction l with
  | nil => intro st; simp
  | cons e l ih =>
    intro st
    rw [List.foldl_cons]
    rcases reminderStep_cases d ty0 r n st e with hc | hc <;> rw [hc]
    · exact ih st
    · rw [ih, countReminders_append, if_neg]
      · omega
      · intro hm
        rw [SentMsg.reminder.injEq] at hm
        exact hty hm.2.symm

/-- If every loop entry naming u already carries the kind in its snapshot,
the loop delivers nothing of that kind to u. -/
theorem foldl_reminder_skip (d : Int) (ty0 : String) (r : Nat → Bool)
    (n : Nat) (u : Nat) :
    ∀ (l : List UserWithout) (st : BotState),
      (∀ e ∈ l, e.user_id = u →
        (e.notifications_sent.any fun nn => nn.ntype == ty0) = true) →
      countReminders ((l.foldl (reminderStep d ty0 r n) st).sent) u ty0
        = countReminders st.sent u ty0 := by
  intro l
  induction l with
  | nil => intro st _; simp
  | cons e l ih =>
    intro st hall
    rw [List.foldl_cons]
    by_cases hu : e.user_id = u
    · rw [reminderStep_skip d ty0 r n st e
        (hall e (List.mem_cons_self e l) hu)]
      exact ih st (fun x hx => hall x (List.mem_cons_of_mem e hx))
    · have ihrest := fun st' => ih st' (fun x hx => hall x (List.mem_cons_of_mem e hx))
      rcases reminderStep_cases d ty0 r n st e with hc | hc <;> rw [hc]
      · exact ihrest st
      · rw [ihrest, countReminders_append, if_neg]
        · omega
        · intro hm
          rw [SentMsg.reminder.injEq] at hm
          exact hu hm.1

/-- The reminder loop preserves a guard that is already recorded. -/
theorem foldl_reminder_estab (d : Int) (ty0 : String) (r : Nat → Bool)
    (n : Nat) (u : Nat) (ty : String) :
    ∀ (l : List UserWithout) (st : BotState),
      hasNotifB st.db u d ty = true →
      hasNotifB ((l.foldl (reminderStep d ty0 r n) st)).db u d ty = true := by
  intro l
  induction l with
  | nil => intro st h; simpa using h
  | cons e l ih =>
    intro st h
    rw [List.foldl_cons]
    rcases reminderStep_cases d ty0 r n st e with hc | hc <;> rw [hc]
    · exact ih st h
    · exact ih _ (hasNotifB_record_pres st.db u d ty e.user_id d ty0 n h)

/-- If the reminder loop delivered a reminder of its kind to u, then the
resulting database records that kind for u. -/
theorem foldl_reminder_record (d : Int) (ty0 : String) (r : Nat → Bool)
    (n : Nat) (u : Nat) :
    ∀ (l : List UserWithout) (st : BotState),
      countReminders st.sent u ty0
          < countReminders ((l.foldl (reminderStep d ty0 r n) st).sent) u ty0 →
      hasNotifB ((l.foldl (reminderStep d ty0 r n) st)).db u d ty0 = true := by
  intro l
  induction l with
  | nil => intro st h; simp at h
  | cons e l ih =>
    intro st h
    rw [List.foldl_cons] at h ⊢
    rcases reminderStep_cases d ty0 r n st e with hc | hc <;> rw [hc] at h ⊢
    · exact ih st h
    · by_cases hm : SentMsg.reminder e.user_id ty0 = SentMsg.reminder u ty0
      · rw [SentMsg.reminder.injEq] at hm
        apply foldl_reminder_estab
        have hrec : hasNotifB (record_notification_sent st.db e.user_id d ty0 n)
            u d ty0 = true := by
          rw [hm.1]
          exact hasNotifB_record_self st.db u d ty0 n
        exact hrec
      · apply ih
        have hcc : countReminders
            (st.sent ++ [SentMsg.reminder e.user_id ty0]) u ty0
            = countReminders st.sent u ty0 := by
          rw [countReminders_append, if_neg hm]
          omega
        have hsent : ({ db := record_notification_sent st.db e.user_id d ty0 n,
                        sent := st.sent ++ [SentMsg.reminder e.user_id ty0] }
              : BotState).sent
            = st.sent ++ [SentMsg.reminder e.user_id ty0] := rfl
        rw [hsent, hcc]
        exact h

/-- A message already delivered stays in the log through the reminder loop. -/
theorem foldl_reminder_sent_mem (d : Int) (ty0 : String) (r : Nat → Bool)
    (n : Nat) (m : SentMsg) :
    ∀ (l : List UserWithout) (st : BotState), m ∈ st.sent →
      m ∈ ((l.foldl (reminderStep d ty0 r n) st)).sent := by
  intro l
  induction l with
  | nil => intro st h; simpa using h
  | cons e l ih =>
    intro st h
    rw [List.foldl_cons]
    rcases reminderStep_cases d ty0 r n st e with hc | hc <;> rw [hc]
    · exact ih st h
    · exact ih _ (by simp only; exact List.mem_append_left _ h)

/-- An entry with the kind unsent and a working send receives its reminder
during the loop, regardless of failures for other entries. -/
theorem foldl_reminder_delivers (d : Int) (ty0 : String) (r : Nat → Bool)
    (n : Nat) :
    ∀ (l : List UserWithout) (st : BotState) (e : UserWithout), e ∈ l →
      (e.notifications_sent.any fun nn => nn.ntype == ty0) = false →
      r e.user_id = true →
      SentMsg.reminder e.user_id ty0
        ∈ ((l.foldl (reminderStep d ty0 r n) st)).sent := by
  intro l
  induction l with
  | nil => intro st e he; exact absurd he (List.not_mem_nil e)
  | cons x l ih =>
    intro st e he hno hr
    rw [List.foldl_cons]
    rcases List.mem_cons.mp he with rfl | he'
    · have hstep : reminderStep d ty0 r n st e
          = { db := record_notification_sent st.db e.user_id d ty0 n
              sent := st.sent ++ [SentMsg.reminder e.user_id ty0] } := by
        unfold reminderStep
        rw [if_neg (by rw [hno]; exact Bool.false_ne_true), if_pos hr]
      rw [hstep]
      exact foldl_reminder_sent_mem d ty0 r n _ l _
        (by simp only; exact List.mem_append_right _ (List.mem_singleton_self _))
    · exact ih _ e he' hno hr

/-- An absent iteration always applies the database mark first. -/
theorem absentStep_db (d : Int) (r : Nat → Bool) (n : Nat)
    (p : BotState × Nat) (e : UserWithout) :
    (absentStep d r n p e).1.db
      = mark_user_absent p.1.db e.user_id d "No daily target submitted" n := by
  unfold absentStep
  by_cases h : r e.user_id = true <;> simp [h]

/-- An absent iteration appends at most the absent notice to the log. -/
theorem absentStep_sent_cases (d : Int) (r : Nat → Bool) (n : Nat)
    (p : BotState × Nat) (e : UserWithout) :
    (absentStep d r n p e).1.sent = p.1.sent
    ∨ (absentStep d r n p e).1.sent
        = p.1.sent ++ [SentMsg.absent e.user_id] := by
  unfold absentStep
  by_cases h : r e.user_id = true <;> simp [h]

/-- The absent loop delivers no reminder messages. -/
theorem foldl_absent_count (d : Int) (r : Nat → Bool) (n : Nat) (u : Nat)
    (ty : String) :
    ∀ (l : List UserWithout) (p : BotState × Nat),
      countReminders ((l.foldl (absentStep d r n) p).1.sent) u ty
        = countReminders p.1.sent u ty := by
  intro l
  induction l with
  | nil => intro p; simp
  | cons e l ih =>
    intro p
    rw [List.foldl_cons, ih]
    rcases absentStep_sent_cases d r n p e with hc | hc <;> rw [hc]
    rw [countReminders_append, if_neg (by intro hm; cases hm)]
    omega

/-- The absent loop preserves a recorded notification guard. -/
theorem foldl_absent_estab (d : Int) (r : Nat → Bool) (n : Nat) (u : Nat)
    (ty : String) :
    ∀ (l : List UserWithout) (p : BotState × Nat),
      hasNotifB p.1.db u d ty = true →
      hasNotifB ((l.foldl (absentStep d r n) p)).1.db u d ty = true := by
  intro l
  induction l with
  | nil => intro p h; simpa using h
  | cons e l ih =>
    intro p h
    rw [List.foldl_cons]
    refine ih _ ?_
    rw [absentStep_db]
    exact hasNotifB_mark_pres p.1.db u d ty e.user_id d
      "No daily target submitted" n h

/-- The absent loop does not touch the registrations collection. -/
theorem foldl_absent_regs (d : Int) (r : Nat → Bool) (n : Nat) :
    ∀ (l : List UserWithout) (p : BotState × Nat),
      ((l.foldl (absentStep d r n) p)).1.db.registrations
        = p.1.db.registrations := by
  intro l
  induction l with
  | nil => intro p; rfl
  | cons e l ih =>
    intro p
    rw [List.foldl_cons, ih]
    rw [absentStep_db]
    rfl

/-- The absent loop preserves delivered messages in the log. -/
theorem foldl_absent_sent_mem (d : Int) (r : Nat → Bool) (n : Nat)
    (m : SentMsg) :
    ∀ (l : List UserWithout) (p : BotState × Nat), m ∈ p.1.sent →
      m ∈ ((l.foldl (absentStep d r n) p)).1.sent := by
  intro l
  induction l with
  | nil => intro p h; simpa using h
  | cons e l ih =>
    intro p h
    rw [List.foldl_cons]
    refine ih _ ?_
    rcases absentStep_sent_cases d r n p e with hc | hc <;> rw [hc]
    · exact h
    · exact List.mem_append_left _ h

/-- The absent loop preserves a set absent flag. -/
theorem foldl_absent_marked_pres (d : Int) (r : Nat → Bool) (n : Nat)
    (u : Nat) :
    ∀ (l : List UserWithout) (p : BotState × Nat),
      markedB p.1.db u d = true →
      markedB ((l.foldl (absentStep d r n) p)).1.db u d = true := by
  intro l
  induction l with
  | nil => intro p h; simpa using h
  | cons e l ih =>
    intro p h
    rw [List.foldl_cons]
    refine ih _ ?_
    rw [absentStep_db]
    exact markedB_mark_pres p.1.db u d e.user_id d
      "No daily target submitted" n h

/-- Every entry of the absent loop list ends up marked absent, including the
entries whose notification fails and the ones processed after a failure. -/
theorem foldl_absent_marked (d : Int) (r : Nat → Bool) (n : Nat) :
    ∀ (l : List UserWithout) (p : BotState × Nat) (e : UserWithout), e ∈ l →
      markedB ((l.foldl (absentStep d r n) p)).1.db e.user_id d = true := by
  intro l
  induction l with
  | nil => intro p e he; exact absurd he (List.not_mem_nil e)
  | cons x l ih =>
    intro p e he
    rw [List.foldl_cons]
    rcases List.mem_cons.mp he with rfl | he'
    · refine foldl_absent_marked_pres d r n e.user_id l _ ?_
      rw [absentStep_db]
      exact markedB_mark_self p.1.db e.user_id d "No daily target submitted" n
    · exact ih _ e he'

/-- mark_absent_users delivers no reminder messages. -/
theorem mark_absent_users_count (st : BotState) (gid : Int) (d : Int)
    (r : Nat → Bool) (a : Bool) (n : Nat) (u : Nat) (ty : String) :
    countReminders ((mark_absent_users st gid d r a n).sent) u ty
      = countReminders st.sent u ty := by
  unfold mark_absent_users
  by_cases he : (get_users_without_target_today st.db gid d).isEmpty = true
  · rw [if_pos he]
  · rw [if_neg he]
    by_cases ha : a = true <;> simp only [ha, if_true, Bool.false_eq_true, if_false]
    · rw [countReminders_append, if_neg (by intro hm; cases hm)]
      rw [foldl_absent_count]
      rfl
    · rw [foldl_absent_count]

/-- mark_absent_users preserves a recorded notification guard. -/
theorem mark_absent_users_estab (st : BotState) (gid : Int) (d : Int)
    (r : Nat → Bool) (a : Bool) (n : Nat) (u : Nat) (ty : String)
    (h : hasNotifB st.db u d ty = true) :
    hasNotifB (mark_absent_users st gid d r a n).db u d ty = true := by
  unfold mark_absent_users
  by_cases he : (get_users_without_target_today st.db gid d).isEmpty = true
  · rw [if_pos he]; exact h
  · rw [if_neg he]
    by_cases ha : a = true <;> simp only [ha, if_true, Bool.false_eq_true, if_false]
    · exact foldl_absent_estab d r n u ty _ (st, 0) h
    · exact foldl_absent_estab d r n u ty _ (st, 0) h

/-- mark_absent_users does not touch the registrations collection. -/
theorem mark_absent_users_regs (st : BotState) (gid : Int) (d : Int)
    (r : Nat → Bool) (a : Bool) (n : Nat) :
    (mark_absent_users st gid d r a n).db.registrations
      = st.db.registrations := by
  unfold mark_absent_users
  by_cases he : (get_users_without_target_today st.db gid d).isEmpty = true
  · rw [if_pos he]
  · rw [if_neg he]
    by_cases ha : a = true <;> simp only [ha, if_true, Bool.false_eq_true, if_false]
    · exact foldl_absent_regs d r n _ (st, 0)
    · exact foldl_absent_regs d r n _ (st, 0)

/-- mark_absent_users preserves delivered messages in the log. -/
theorem mark_absent_users_sent_mem (st : BotState) (gid : Int) (d : Int)
    (r : Nat → Bool) (a : Bool) (n : Nat) (m : SentMsg) (h : m ∈ st.sent) :
    m ∈ (mark_absent_users st gid d r a n).sent := by
  unfold mark_absent_users
  by_cases he : (get_users_without_target_today st.db gid d).isEmpty = true
  · rw [if_pos he]; exact h
  · rw [if_neg he]
    by_cases ha : a = true <;> simp only [ha, if_true, Bool.false_eq_true, if_false]
    · exact List.mem_append_left _ (foldl_absent_sent_mem d r n m _ (st, 0) h)
    · exact foldl_absent_sent_mem d r n m _ (st, 0) h

/-- Every user returned by the query is marked absent by mark_absent_users,
whatever the send outcomes. -/
theorem mark_absent_users_marked (st : BotState) (gid : Int) (d : Int)
    (r : Nat → Bool) (a : Bool) (n : Nat) (e : UserWithout)
    (he : e ∈ get_users_without_target_today st.db gid d) :
    markedB (mark_absent_users st gid d r a n).db e.user_id d = true := by
  unfold mark_absent_users
  have hne : (get_users_without_target_today st.db gid d).isEmpty ≠ true := by
    intro hc
    rw [List.isEmpty_iff] at hc
    rw [hc] at he
    exact absurd he (List.not_mem_nil e)
  rw [if_neg hne]
  by_cases ha : a = true <;> simp only [ha, if_true, Bool.false_eq_true, if_false]
  · exact foldl_absent_marked d r n _ (st, 0) e he
  · exact foldl_absent_marked d r n _ (st, 0) e he

end SweepLemmas

/-- The number of accepted registrations of user u in the group — the
multiplicity with which the sweep query can name u. -/
def acceptedCount (db : DB) (gid : Int) (u : Nat) : Nat :=
  (db.registrations.filter (fun rg =>
    rg.user_id == u && rg.group_id == gid && rg.status == "accepted")).length

section SweepRunLemmas

/-- A reminder sweep never changes the registrations collection. -/
theorem send_daily_reminders_regs (st : BotState) (gid : Int) (d : Int)
    (hour : Nat) (r : Nat → Bool) (a : Bool) (n : Nat) :
    (send_daily_reminders st gid d hour r a n).db.registrations
      = st.db.registrations := by
  cases hk : notificationTypeOfHour hour with
  | none => simp [send_daily_reminders, hk]
  | some ty0 =>
    simp only [send_daily_reminders, hk]
    by_cases he : (get_users_without_target_today st.db gid d).isEmpty = true
    · rw [if_pos he]
    · rw [if_neg he]
      by_cases hf : (ty0 == "final") = true
      · rw [if_pos hf, mark_absent_users_regs]
        have hfold : ∀ (l : List UserWithout) (s : BotState),
            (l.foldl (reminderStep d ty0 r n) s).db.registrations
              = s.db.registrations := by
          intro l
          induction l with
          | nil => intro s; rfl
          | cons e l ih =>
            intro s
            rw [List.foldl_cons, ih]
            rcases reminderStep_cases d ty0 r n s e with hc | hc <;> rw [hc]
            rfl
        exact hfold _ st
      · rw [if_neg hf]
        have hfold : ∀ (l : List UserWithout) (s : BotState),
            (l.foldl (reminderStep d ty0 r n) s).db.registrations
              = s.db.registrations := by
          intro l
          induction l with
          | nil => intro s; rfl
          | cons e l ih =>
            intro s
            rw [List.foldl_cons, ih]
            rcases reminderStep_cases d ty0 r n s e with hc | hc <;> rw [hc]
            rfl
        exact hfold _ st

/-- One reminder sweep delivers at most acceptedCount reminders naming u. -/
theorem send_daily_reminders_count_le (st : BotState) (gid : Int) (d : Int)
    (hour : Nat) (r : Nat → Bool) (a : Bool) (n : Nat) (u : Nat) (ty : String) :
    countReminders ((send_daily_reminders st gid d hour r a n).sent) u ty
      ≤ countReminders st.sent u ty + acceptedCount st.db gid u := by
  cases hk : notificationTypeOfHour hour with
  | none => simp [send_daily_reminders, hk]
  | some ty0 =>
    simp only [send_daily_reminders, hk]
    by_cases he : (get_users_without_target_today st.db gid d).isEmpty = true
    · rw [if_pos he]; omega
    · rw [if_neg he]
      have hbound := foldl_reminder_count_le d ty0 r n u ty
        (get_users_without_target_today st.db gid d) st
      have hcp := countP_withoutTarget_le st.db.registrations
        st.db.daily_activity gid d u
      have hcp' : (get_users_without_target_today st.db gid d).countP
          (fun e => e.user_id == u) ≤ acceptedCount st.db gid u := hcp
      by_cases hf : (ty0 == "final") = true
      · rw [if_pos hf, mark_absent_users_count]
        omega
      · rw [if_neg hf]
        omega

/-- One reminder sweep never loses delivered reminders from the log. -/
theorem send_daily_reminders_count_mono (st : BotState) (gid : Int) (d : Int)
    (hour : Nat) (r : Nat → Bool) (a : Bool) (n : Nat) (u : Nat) (ty : String) :
    countReminders st.sent u ty
      ≤ countReminders ((send_daily_reminders st gid d hour r a n).sent) u ty := by
  cases hk : notificationTypeOfHour hour with
  | none => simp [send_daily_reminders, hk]
  | some ty0 =>
    simp only [send_daily_reminders, hk]
    by_cases he : (get_users_without_target_today st.db gid d).isEmpty = true
    · rw [if_pos he]
    · rw [if_neg he]
      have hmono := foldl_reminder_count_mono d ty0 r n u ty
        (get_users_without_target_today st.db gid d) st
      by_cases hf : (ty0 == "final") = true
      · rw [if_pos hf, mark_absent_users_count]
        exact hmono
      · rw [if_neg hf]
        exact hmono

/-- A sweep for one kind delivers no reminders of another kind. -/
theorem send_daily_reminders_count_ne (st : BotState) (gid : Int) (d : Int)
    (hour : Nat) (r : Nat → Bool) (a : Bool) (n : Nat) (u : Nat)
    (ty ty0 : String) (hk : notificationTypeOfHour hour = some ty0)
    (hty : ty ≠ ty0) :
    countReminders ((send_daily_reminders st gid d hour r a n).sent) u ty
      = countReminders st.sent u ty := by
  simp only [send_daily_reminders, hk]
  by_cases he : (get_users_without_target_today st.db gid d).isEmpty = true
  · rw [if_pos he]
  · rw [if_neg he]
    have hne := foldl_reminder_count_ne d ty0 r n u ty hty
      (get_users_without_target_today st.db gid d) st
    by_cases hf : (ty0 == "final") = true
    · rw [if_pos hf, mark_absent_users_count]
      exact hne
    · rw [if_neg hf]
      exact hne

/-- If a sweep delivered a reminder of its kind to u, the database afterwards
records that kind for u. -/
theorem send_daily_reminders_record (st : BotState) (gid : Int) (d : Int)
    (hour : Nat) (r : Nat → Bool) (a : Bool) (n : Nat) (u : Nat) (ty0 : String)
    (hk : notificationTypeOfHour hour = some ty0)
    (hlt : countReminders st.sent u ty0
      < countReminders ((send_daily_reminders st gid d hour r a n).sent) u ty0) :
    hasNotifB (send_daily_reminders st gid d hour r a n).db u d ty0 = true := by
  simp only [send_daily_reminders, hk] at hlt ⊢
  by_cases he : (get_users_without_target_today st.db gid d).isEmpty = true
  · rw [if_pos he] at hlt
    exact absurd hlt (lt_irrefl _)
  · rw [if_neg he] at hlt ⊢
    by_cases hf : (ty0 == "final") = true
    · rw [if_pos hf] at hlt ⊢
      rw [mark_absent_users_count] at hlt
      exact mark_absent_users_estab _ gid d r a n u ty0
        (foldl_reminder_record d ty0 r n u _ st hlt)
    · rw [if_neg hf] at hlt ⊢
      exact foldl_reminder_record d ty0 r n u _ st hlt

/-- If the database already records the kind for u, a sweep for that kind
delivers nothing more to u. -/
theorem send_daily_reminders_skip (st : BotState) (gid : Int) (d : Int)
    (hour : Nat) (r : Nat → Bool) (a : Bool) (n : Nat) (u : Nat) (ty0 : String)
    (hk : notificationTypeOfHour hour = some ty0)
    (hn : hasNotifB st.db u d ty0 = true) :
    countReminders ((send_daily_reminders st gid d hour r a n).sent) u ty0
      = countReminders st.sent u ty0 := by
  simp only [send_daily_reminders, hk]
  by_cases he : (get_users_without_target_today st.db gid d).isEmpty = true
  · rw [if_pos he]
  · rw [if_neg he]
    have hskip := foldl_reminder_skip d ty0 r n u
      (get_users_without_target_today st.db gid d) st
      (fun e he' hu => withoutTarget_snapshot_of_hasNotif st.db gid d u ty0 hn
        e he' hu)
    by_cases hf : (ty0 == "final") = true
    · rw [if_pos hf, mark_absent_users_count]
      exact hskip
    · rw [if_neg hf]
      exact hskip

end SweepRunLemmas

/-- Claim C1: running the reminder sweep twice for the same day and hour
(hence the same reminder kind) delivers at most one notification of any kind
to any given user with at most one accepted registration in the group: a
user already having an entry of that kind in the day record is skipped, so
the second invocation adds nothing for that user. -/
theorem c1_reminder_sweep_idempotent (st : BotState) (gid : Int) (d : Int)
    (hour : Nat) (r1 r2 : Nat → Bool) (a1 a2 : Bool) (n1 n2 : Nat)
    (u : Nat) (ty : String) (hreg : acceptedCount st.db gid u ≤ 1) :
    countReminders
        ((send_daily_reminders (send_daily_reminders st gid d hour r1 a1 n1)
          gid d hour r2 a2 n2).sent) u ty
      ≤ countReminders st.sent u ty + 1 := by
  set st1 := send_daily_reminders st gid d hour r1 a1 n1 with hst1
  have hregs1 : st1.db.registrations = st.db.registrations :=
    send_daily_reminders_regs st gid d hour r1 a1 n1
  have hacc1 : acceptedCount st1.db gid u = acceptedCount st.db gid u := by
    unfold acceptedCount
    rw [hregs1]
  cases hk : notificationTypeOfHour hour with
  | none =>
    have h1 : st1 = st := by
      rw [hst1]
      simp [send_daily_reminders, hk]
    rw [h1]
    have h2 : send_daily_reminders st gid d hour r2 a2 n2 = st := by
      simp [send_daily_reminders, hk]
    rw [h2]
    omega
  | some ty0 =>
    by_cases hty : ty = ty0
    · subst hty
      have hb1 := send_daily_reminders_count_le st gid d hour r1 a1 n1 u ty
      have hmono := send_daily_reminders_count_mono st gid d hour r1 a1 n1 u ty
      rw [← hst1] at hb1 hmono
      rcases Nat.lt_or_ge (countReminders st.sent u ty)
          (countReminders st1.sent u ty) with hlt | hge
      · have hlt' := hlt
        rw [hst1] at hlt'
        have hrec := send_daily_reminders_record st gid d hour r1 a1 n1 u ty
          hk hlt'
        rw [← hst1] at hrec
        have hskip :=
          send_daily_reminders_skip st1 gid d hour r2 a2 n2 u ty hk hrec
        omega
      · have hb2 := send_daily_reminders_count_le st1 gid d hour r2 a2 n2 u ty
        rw [hacc1] at hb2
        omega
    · have h1 :=
        send_daily_reminders_count_ne st gid d hour r1 a1 n1 u ty ty0 hk hty
      rw [← hst1] at h1
      have h2 :=
        send_daily_reminders_count_ne st1 gid d hour r2 a2 n2 u ty ty0 hk hty
      omega

/-- The concrete one-user state for the C1 witness. -/
def c1State : BotState :=
  ⟨{ targets := [], registrations := [⟨7, 1, "alice", "accepted", true⟩],
     daily_activity := [], users := [] }, []⟩

/-- Witness for C1: two 9:00 runs over one accepted user deliver at most one
"first" reminder. -/
theorem c1_reminder_sweep_idempotent_witness :
    acceptedCount c1State.db 1 7 ≤ 1
    ∧ countReminders
        ((send_daily_reminders
          (send_daily_reminders c1State 1 1 9 (fun x => x == 7) true 0)
          1 1 9 (fun x => x == 7) true 5).sent) 7 "first"
      ≤ countReminders c1State.sent 7 "first" + 1 :=
  ⟨by decide,
   c1_reminder_sweep_idempotent c1State 1 1 9 (fun x => x == 7)
     (fun x => x == 7) true true 0 5 7 "first" (by decide)⟩

/-- Claim C8: during the sweeps, a notification failure for one user aborts
nothing — every queried user is marked absent by the end-of-day sweep even
when that user (or any other) is unreachable, and every queried user with a
working send and an unsent kind receives the reminder, whatever happens to
the other users. -/
theorem c8_sweep_failure_isolation (st : BotState) (gid : Int) (d : Int)
    (r : Nat → Bool) (a : Bool) (n : Nat) (e : UserWithout)
    (he : e ∈ get_users_without_target_today st.db gid d) :
    (get_user_daily_status (mark_absent_users st gid d r a n).db
        e.user_id d).marked_absent = true
    ∧ ∀ (hour : Nat) (ty : String), notificationTypeOfHour hour = some ty →
        (e.notifications_sent.any fun nn => nn.ntype == ty) = false →
        r e.user_id = true →
        SentMsg.reminder e.user_id ty
          ∈ (send_daily_reminders st gid d hour r a n).sent := by
  constructor
  · exact mark_absent_users_marked st gid d r a n e he
  · intro hour ty hk hno hr
    simp only [send_daily_reminders, hk]
    have hne : (get_users_without_target_today st.db gid d).isEmpty ≠ true := by
      intro hc
      rw [List.isEmpty_iff] at hc
      rw [hc] at he
      exact absurd he (List.not_mem_nil e)
    rw [if_neg hne]
    have hmem := foldl_reminder_delivers d ty r n _ st e he hno hr
    by_cases hf : (ty == "final") = true
    · rw [if_pos hf]
      exact mark_absent_users_sent_mem _ gid d r a n _ hmem
    · rw [if_neg hf]
      exact hmem

/-- The concrete two-user state for the C8 witness: users 5 and 6 are
registered, user 5 is unreachable. -/
def c8State : BotState :=
  ⟨{ targets := [],
     registrations := [⟨5, 1, "amir", "accepted", true⟩,
                       ⟨6, 1, "bea", "accepted", true⟩],
     daily_activity := [], users := [] }, []⟩

/-- Witness for C8: with user 5 unreachable, the end-of-day sweep still marks
user 5 absent, and the 9:00 sweep still delivers the first reminder to user 6
although user 5 failed before it. -/
theorem c8_sweep_failure_isolation_witness :
    (⟨5, "amir", []⟩ : UserWithout) ∈ get_users_without_target_today c8State.db 1 1
    ∧ (get_user_daily_status
        (mark_absent_users c8State 1 1 (fun x => x == 6) true 0).db
        5 1).marked_absent = true
    ∧ SentMsg.reminder 6 "first"
        ∈ (send_daily_reminders c8State 1 1 9 (fun x => x == 6) true 0).sent :=
  ⟨by decide,
   (c8_sweep_failure_isolation c8State 1 1 (fun x => x == 6) true 0
     ⟨5, "amir", []⟩ (by decide)).1,
   (c8_sweep_failure_isolation c8State 1 1 (fun x => x == 6) true 0
     ⟨6, "bea", []⟩ (by decide)).2 9 "first" rfl (by decide) (by decide)⟩

end StudyBot
